import Mathlib

set_option maxRecDepth 40000

/-!
Verification of the calldata-parser core: the token metadata registry
(`src/utils/tokenResolver.ts`) and the recursive value formatter
(`src/utils/enhancedFormatter.ts`, present in the repository in two
revisions: the chainId-aware one with the CONTRACT_BALANCE sentinel check,
embedded below at top level, and the older revision without either,
embedded in the `Legacy` namespace).

Decoded parameter values are modelled by the inductive `Value` (the JS
value universe the formatter dispatches over).  JS-specific behaviour the
source relies on (truthiness, `BigInt(string)` parsing, `String(x)`
coercion, `JSON.stringify(v, null, 2)`, viem's `formatUnits` and
`isAddress`) is embedded explicitly.  Machine floats appear only as the
fee-tier division `fee / 10000`, whose printed form for the integer fees
the router uses coincides with exact decimal division; it is embedded as
exact decimal division (`divTenThousandRepr`).
-/

namespace CallDataParser

/-- The universe of decoded JS values the formatter dispatches over:
`null`, `undefined`, booleans, (integral) numbers, strings, native
bigints, arrays, and plain objects given as ordered field lists. -/
inductive Value where
  | vNull
  | vUndefined
  | vBool (b : Bool)
  | vNum (n : Int)
  | vStr (s : String)
  | vBigInt (n : Int)
  | vArr (elems : List Value)
  | vObj (fields : List (String × Value))

namespace Value

/-- JS falsiness (`!v`): `null`, `undefined`, `false`, `0`, `0n` and the
empty string are falsy; every object and array is truthy. -/
def jsFalsy : Value → Bool
  | .vNull => true
  | .vUndefined => true
  | .vBool b => !b
  | .vNum n => n == 0
  | .vStr s => s == ""
  | .vBigInt n => n == 0
  | .vArr _ => false
  | .vObj _ => false

/-- JS truthiness (`if (v)`). -/
def jsTruthy (v : Value) : Bool := !v.jsFalsy

/-- JS `a || b` on values: `a` when truthy, else `b`. -/
def jsOrVal (a b : Value) : Value := if a.jsTruthy then a else b

end Value

/-- Field lookup in an object field list (first match, as in a JS object
whose keys are unique). -/
def lookupField : List (String × Value) → String → Value
  | [], _ => .vUndefined
  | (k, v) :: rest, key => if k = key then v else lookupField rest key

/-- Membership of a key in an object field list (JS `'k' in obj`). -/
def hasKey (fields : List (String × Value)) (key : String) : Bool :=
  fields.any (fun f => f.1 == key)

/-- JS property access `v.key`: `undefined` on non-objects and missing
keys. -/
def objField (v : Value) (key : String) : Value :=
  match v with
  | .vObj fields => lookupField fields key
  | _ => .vUndefined

/-- JS `typeof item === 'object' && item && 'k' in item` for a given key:
a (non-null) object carrying the key.  Arrays are `typeof 'object'` but
carry no named fields in decoder output, so they never pass. -/
def isObjWithKey (v : Value) (key : String) : Bool :=
  match v with
  | .vObj fields => hasKey fields key
  | _ => false

/-! ## JS string/number primitives used by the source -/

/-- Value of one digit character in bases up to 16, else `none`. -/
def digitVal (c : Char) : Option Nat :=
  if c.isDigit then some (c.toNat - '0'.toNat)
  else if 'a' ≤ c ∧ c ≤ 'f' then some (10 + c.toNat - 'a'.toNat)
  else if 'A' ≤ c ∧ c ≤ 'F' then some (10 + c.toNat - 'A'.toNat)
  else none

/-- Parse a non-empty all-digits string in the given base, else `none`. -/
def parseNatDigits (base : Nat) (cs : List Char) : Option Nat :=
  match cs with
  | [] => none
  | _ =>
    cs.foldl
      (fun acc c =>
        match acc, digitVal c with
        | some a, some d => if d < base then some (a * base + d) else none
        | _, _ => none)
      (some 0)

/-- `s.startsWith p` on character lists (the byte-based core primitive
is not kernel-reducible). -/
def strStartsWith (s p : String) : Bool :=
  s.data.take p.data.length == p.data

/-- `s.toLowerCase()` on character lists. -/
def toLowerStr (s : String) : String :=
  String.mk (s.data.map Char.toLower)

/-- String trimming on character lists (JS `BigInt` ignores surrounding
whitespace). -/
def trimStr (s : String) : String :=
  String.mk (((s.data.dropWhile Char.isWhitespace).reverse.dropWhile
    Char.isWhitespace).reverse)

/-- JS `BigInt(string)`: optional surrounding whitespace, the empty string
is `0n`, `0x`/`0o`/`0b` radix literals (unsigned), otherwise an optionally
signed decimal literal; anything else throws (`none`). -/
def jsBigIntOfString (s : String) : Option Int :=
  let t := trimStr s
  if t = "" then some 0
  else if strStartsWith t "0x" ∨ strStartsWith t "0X" then
    (parseNatDigits 16 (t.drop 2).data).map Int.ofNat
  else if strStartsWith t "0o" ∨ strStartsWith t "0O" then
    (parseNatDigits 8 (t.drop 2).data).map Int.ofNat
  else if strStartsWith t "0b" ∨ strStartsWith t "0B" then
    (parseNatDigits 2 (t.drop 2).data).map Int.ofNat
  else if strStartsWith t "-" then
    (parseNatDigits 10 (t.drop 1).data).map (fun n => -(n : Int))
  else if strStartsWith t "+" then
    (parseNatDigits 10 (t.drop 1).data).map Int.ofNat
  else (parseNatDigits 10 t.data).map Int.ofNat

/-- JS `String.prototype.padStart(n, c)`. -/
def padStart (s : String) (n : Nat) (c : Char) : String :=
  if n ≤ s.length then s
  else String.mk (List.replicate (n - s.length) c) ++ s

/-- JS `s.replace(/(0+)$/, '')`: drop trailing zero characters. -/
def trimTrailingZeros (s : String) : String :=
  String.mk ((s.data.reverse.dropWhile (fun c => c == '0')).reverse)

/-- JS `s.slice(0, 6) + '...' + s.slice(-4)`, the truncated-address
display used throughout the formatter. -/
def addrShort (s : String) : String :=
  s.take 6 ++ "..." ++ s.drop (s.length - 4)

/-- `value.slice` on a decoded value: defined for strings, a thrown
`TypeError` (`none`) otherwise.  (Token fields are strings whenever this
is reached; non-string receivers do not occur in decoder output.) -/
def sliceVal (v : Value) : Option String :=
  match v with
  | .vStr s => some (addrShort s)
  | _ => none

/-- viem's `formatUnits(value, decimals)`: pad the digits of `|value|` to
at least `decimals` characters, split off the last `decimals` characters
as the fraction, trim the fraction's trailing zeros. -/
def formatUnits (value : Int) (decimals : Nat) : String :=
  let display := padStart value.natAbs.repr decimals '0'
  let intPart := display.take (display.length - decimals)
  let fracPart := trimTrailingZeros (display.drop (display.length - decimals))
  (if value < 0 then "-" else "")
    ++ (if intPart = "" then "0" else intPart)
    ++ (if fracPart = "" then "" else "." ++ fracPart)

mutual

/-- JS `String(v)` / template-literal coercion.  Arrays stringify as their
elements joined with commas (with `null`/`undefined` elements blank),
objects as `[object Object]`. -/
def jsToString : Value → String
  | .vNull => "null"
  | .vUndefined => "undefined"
  | .vBool b => if b then "true" else "false"
  | .vNum n => n.repr
  | .vStr s => s
  | .vBigInt n => n.repr
  | .vArr elems => jsToStringList elems
  | .vObj _ => "[object Object]"

def jsToStringList : List Value → String
  | [] => ""
  | [x] => jsToStringElem x
  | x :: rest => jsToStringElem x ++ "," ++ jsToStringList rest

def jsToStringElem : Value → String
  | .vNull => ""
  | .vUndefined => ""
  | .vBool b => if b then "true" else "false"
  | .vNum n => n.repr
  | .vStr s => s
  | .vBigInt n => n.repr
  | .vArr elems => jsToStringList elems
  | .vObj _ => "[object Object]"

end

/-! ## Token metadata registry (`src/utils/tokenResolver.ts`) -/

/-- The resolved token metadata record (`TokenInfo`).  `priceInUsd` is a
JS number that the core only ever copies, never computes with; it is
modelled as an integer-valued constant. -/
structure TokenInfo where
  symbol : String
  decimals : Nat
  logo : String
  contract : Option String
  priceInUsd : Int
deriving Repr, DecidableEq

/-- One token entry of the remote LayerSwap payload (`LayerSwapToken`). -/
structure LayerSwapToken where
  symbol : String
  contract : Option String
  decimals : Nat
  logo : String
  price_in_usd : Int
deriving Repr, DecidableEq

/-- One network entry of the remote LayerSwap payload
(`LayerSwapNetwork`). -/
structure LayerSwapNetwork where
  chain_id : String
  tokens : List LayerSwapToken
deriving Repr, DecidableEq

/-- The module-level `tokenCache : Map<string, TokenInfo>`, modelled as an
association list in which the most recent `set` wins. -/
def Cache := List (String × TokenInfo)

/-- `Map.get`. -/
def cacheGet (c : Cache) (key : String) : Option TokenInfo :=
  (List.find? (fun e => e.1 == key) c).map (fun e => e.2)

/-- `Map.set`: the new binding shadows any previous binding of the key. -/
def cacheSet (c : Cache) (key : String) (v : TokenInfo) : Cache :=
  (key, v) :: List.filter (fun e => e.1 != key) c

/-- The `TokenInfo` built from a remote token entry inside
`fetchLayerSwapData`'s cache-building loop. -/
def tokenInfoOf (t : LayerSwapToken) : TokenInfo :=
  ⟨t.symbol, t.decimals, t.logo, t.contract, t.price_in_usd⟩

/-- The cache-building loop of `fetchLayerSwapData`: every token is keyed
by `chain_id:lowercasedAddress` (with `native` for a missing contract),
and additionally by the lowercased address alone when a contract is
present. -/
def buildTokenCache (init : Cache) (nets : List LayerSwapNetwork) : Cache :=
  nets.foldl
    (fun c net =>
      net.tokens.foldl
        (fun c tok =>
          -- `token.contract?.toLowerCase() || 'native'`
          let address :=
            match tok.contract with
            | some ct => if toLowerStr ct = "" then "native" else toLowerStr ct
            | none => "native"
          let c1 := cacheSet c (net.chain_id ++ ":" ++ address) (tokenInfoOf tok)
          -- `if (token.contract)`: also cache by address only
          match tok.contract with
          | some ct => if ct = "" then c1 else cacheSet c1 (toLowerStr ct) (tokenInfoOf tok)
          | none => c1)
        c)
    init

/-- The module-level mutable state of `tokenResolver.ts`:
`networksData`, the dedup flag for the in-flight `fetchPromise`, and
`tokenCache`.  `requestCount` is a ghost counter of outbound network
requests, incremented exactly when a new fetch is started. -/
structure RegistryState where
  networksData : Option (List LayerSwapNetwork)
  fetchPromise : Bool
  tokenCache : Cache
  requestCount : Nat

/-- The state before any resolution demand: nothing fetched. -/
def registryInit : RegistryState := ⟨none, false, [], 0⟩

/-- The synchronous prefix of a call to `fetchLayerSwapData()`: return at
once when data is already loaded (`networksData` set — note a failed
fetch leaves it set to `[]`, which is truthy) or a fetch is already in
flight; otherwise issue the single outbound request and record the
in-flight promise.  JS runs this segment atomically (no await precedes
the assignment), which is why it is one step of the state machine. -/
def fetchLayerSwapData (s : RegistryState) : RegistryState :=
  if s.networksData.isSome then s
  else if s.fetchPromise then s
  else { s with fetchPromise := true, requestCount := s.requestCount + 1 }

/-- The two ways the single in-flight fetch can settle. -/
inductive FetchOutcome where
  | success (data : List LayerSwapNetwork)
  | failure

/-- Settlement of the in-flight fetch, observed by every awaiting caller
at once: on success `networksData` is stored and the cache built in full;
on transport/decode failure the `catch` block stores `networksData = []`
and the cache stays empty — the promise still resolves normally, so no
caller sees an exception. -/
def completeFetch (o : FetchOutcome) (s : RegistryState) : RegistryState :=
  match o with
  | .success d =>
    { s with networksData := some d, tokenCache := buildTokenCache s.tokenCache d }
  | .failure => { s with networksData := some [] }

/-- The all-zero native-asset sentinel address. -/
def zeroAddress : String := "0x0000000000000000000000000000000000000000"

/-- The metadata synthesized for the native asset without touching the
cache. -/
def nativeEth : TokenInfo := ⟨"ETH", 18, "", none, 0⟩

/-- viem's `isAddress`: a 42-character `0x`-prefixed hex string.  (viem
additionally accepts EIP-55 checksummed mixed-case strings; the keccak
checksum is outside this embedding, so well-formedness is modelled for
the lowercase form the registry keys use.) -/
def isAddressStr (s : String) : Bool :=
  s.length == 42 && strStartsWith s "0x"
    && (s.drop 2).data.all (fun c => (digitVal c).isSome)
    && (s.drop 2).data.all (fun c => !c.isUpper)

/-- `resolveToken(address, chainId?)` after the shared fetch has been
awaited: native sentinel (or any falsy address) synthesizes ETH metadata;
a malformed address resolves to `null`; otherwise the chain-scoped key
`chainId:lowercasedAddress` is tried first when `chainId` is truthy, with
the network-agnostic lowercased address as fallback. -/
def resolveToken (reg : RegistryState) (address : Value) (chainId : Option String) :
    Option TokenInfo :=
  if address.jsFalsy then some nativeEth
  else
    match address with
    | .vStr a =>
      if a = zeroAddress then some nativeEth
      else if !isAddressStr a then none
      else
        let lowerAddress := toLowerStr a
        let scopedHit :=
          match chainId with
          | some cid =>
            if cid = "" then none
            else cacheGet reg.tokenCache (cid ++ ":" ++ lowerAddress)
          | none => none
        match scopedHit with
        | some t => some t
        | none => cacheGet reg.tokenCache lowerAddress
    | _ => none

/-- `chainId || undefined`: the formatter passes the chain id through
this truthiness coercion at every `resolveToken` call site. -/
def chainOpt : Option String → Option String
  | some s => if s = "" then none else some s
  | none => none

/-! ## `JSON.stringify(value, null, 2)` -/

/-- Outcome of serializing one value: a JSON text, the JS value
`undefined` (for `undefined` inputs, omitted in objects and rendered
`null` in arrays), or a thrown `TypeError` (native bigints). -/
inductive JsonOut where
  | ok (s : String)
  | undefOut
  | err
deriving Repr, DecidableEq

/-- JSON string escaping for the characters that can occur in decoded
calldata values. -/
def jsonEscape (s : String) : String :=
  s.data.foldl
    (fun acc c =>
      acc ++
        (if c = '"' then "\\\""
         else if c = '\\' then "\\\\"
         else if c = '\n' then "\\n"
         else if c = '\r' then "\\r"
         else if c = '\t' then "\\t"
         else String.mk [c]))
    ""

/-- A JSON string literal. -/
def jsonQuote (s : String) : String := "\"" ++ jsonEscape s ++ "\""

mutual

/-- `JSON.stringify(v, null, 2)` at nesting indentation `ind` (the
indentation of the value's container; children indent two further
spaces). -/
def jsonSer (ind : String) : Value → JsonOut
  | .vNull => .ok "null"
  | .vUndefined => .undefOut
  | .vBool b => .ok (if b then "true" else "false")
  | .vNum n => .ok n.repr
  | .vStr s => .ok (jsonQuote s)
  | .vBigInt _ => .err
  | .vArr elems =>
    match elems with
    | [] => .ok "[]"
    | _ =>
      match jsonSerItems (ind ++ "  ") elems with
      | some items =>
        .ok ("[\n" ++ String.intercalate ",\n" items ++ "\n" ++ ind ++ "]")
      | none => .err
  | .vObj fields =>
    match jsonSerFields (ind ++ "  ") fields with
    | some [] => .ok "\x7b\x7d"
    | some entries =>
      .ok ("\x7b\n" ++ String.intercalate ",\n" entries ++ "\n" ++ ind ++ "\x7d")
    | none => .err

/-- Array items: `undefined` members serialize as `null`; a thrown error
propagates. -/
def jsonSerItems (ind : String) : List Value → Option (List String)
  | [] => some []
  | v :: rest =>
    match jsonSer ind v with
    | .err => none
    | .undefOut =>
      match jsonSerItems ind rest with
      | some items => some ((ind ++ "null") :: items)
      | none => none
    | .ok s =>
      match jsonSerItems ind rest with
      | some items => some ((ind ++ s) :: items)
      | none => none

/-- Object entries: `undefined` members are omitted; a thrown error
propagates. -/
def jsonSerFields (ind : String) : List (String × Value) → Option (List String)
  | [] => some []
  | (k, v) :: rest =>
    match jsonSer ind v with
    | .err => none
    | .undefOut => jsonSerFields ind rest
    | .ok s =>
      match jsonSerFields ind rest with
      | some entries => some ((ind ++ jsonQuote k ++ ": " ++ s) :: entries)
      | none => none

end

/-- Top-level `JSON.stringify(value, null, 2)`. -/
def jsonStringify2 (v : Value) : JsonOut := jsonSer "" v

/-! ## Big-number recognition and normalization
(`enhancedFormatter.ts`, current revision) -/

/-- `isBigNumberLike`: an object exposing `hex` or `_hex`, whose `type`
field — when present — equals `'BigNumber'`. -/
def isBigNumberLike (v : Value) : Bool :=
  match v with
  | .vObj fields =>
    (hasKey fields "hex" || hasKey fields "_hex")
      && (if hasKey fields "type"
          then (match lookupField fields "type" with
                | .vStr s => s == "BigNumber"
                | _ => false)
          else true)
  | _ => false

/-- The `bn.hex || bn._hex` access shared by the sentinel check and
`bigNumberToBigInt`. -/
def bnHexValue (v : Value) : Value :=
  Value.jsOrVal (objField v "hex") (objField v "_hex")

/-- The full-balance sentinel
(`CONTRACT_BALANCE`, `2^255` in hex). -/
def CONTRACT_BALANCE : String :=
  "0x8000000000000000000000000000000000000000000000000000000000000000"

/-- Strict equality of the extracted hex with the sentinel string. -/
def isCtBalanceHex (v : Value) : Bool :=
  match v with
  | .vStr s => s == CONTRACT_BALANCE
  | _ => false

/-- `BigInt(x)` on a decoded value: strings parse, numbers and bigints
pass through, booleans coerce, anything else throws. -/
def jsBigIntOfValue (v : Value) : Option Int :=
  match v with
  | .vStr s => jsBigIntOfString s
  | .vNum n => some n
  | .vBigInt n => some n
  | .vBool b => some (if b then 1 else 0)
  | _ => none

/-- `bigNumberToBigInt`: a falsy extracted hex yields `0n`, otherwise
`BigInt(hex)` (which may throw, `none`). -/
def bigNumberToBigInt (v : Value) : Option Int :=
  let hex := bnHexValue v
  if hex.jsFalsy then some 0 else jsBigIntOfValue hex

/-- The marker returned for the full-balance sentinel. -/
def ctBalanceMarker : String := "CONTRACT_BALANCE (use all from previous step)"

/-- Outcome of the `amount`-to-bigint section of `formatTokenAmount`
(current revision, lines 50–66): a converted integer, an early string
return (the sentinel marker, or the unparseable string itself from the
`catch`), or a thrown error. -/
inductive JsConv where
  | val (i : Int)
  | retStr (s : String)
  | err
deriving Repr, DecidableEq

/-- The conversion section of the current `formatTokenAmount`: a
big-number-like record goes through `bigNumberToBigInt`; a string equal
to the sentinel returns the marker, otherwise `BigInt(string)` with the
string itself returned when parsing throws; bigints (and numbers) pass
through.  Other shapes are outside the declared TS signature
`string | bigint | BigNumberLike`. -/
def amountToBigInt (amount : Value) : JsConv :=
  if isBigNumberLike amount then
    match bigNumberToBigInt amount with
    | some i => .val i
    | none => .err
  else
    match amount with
    | .vStr s =>
      if s = CONTRACT_BALANCE then .retStr ctBalanceMarker
      else
        match jsBigIntOfString s with
        | some i => .val i
        | none => .retStr s
    | .vBigInt n => .val n
    | .vNum n => .val n
    | _ => .err

/-- `formatted.split('.')` of the source, on character lists so that its
algebra is provable; JS `split` of the empty string yields `[""]`.  (The
result list is always non-empty, so `headD`/`tail` realize "extend the
first segment".) -/
def splitDotChars : List Char → List (List Char)
  | [] => [[]]
  | c :: rest =>
    let r := splitDotChars rest
    if c = '.' then [] :: r else (c :: r.headD []) :: r.tail

/-- `s.split('.')`. -/
def splitDot (s : String) : List String :=
  (splitDotChars s.data).map String.mk

/-- `parts[0]` of the dot split. -/
def wholePart (s : String) : String := (splitDot s).headD ""

/-- `parts[1] || ''` of the dot split. -/
def fracPart (s : String) : String := ((splitDot s).drop 1).headD ""

/-- JS `s.slice(0, n)` (characters, as in UTF-16 for the digit strings
involved). -/
def takeChars (s : String) (n : Nat) : String := String.mk (s.data.take n)

/-- Lines 72–79 of the current `formatTokenAmount`: split the scaled
amount at the decimal point and keep at most the first six fractional
digits. -/
def truncFrac6 (formatted : String) : String :=
  let whole := wholePart formatted
  let limited := takeChars (fracPart formatted) 6
  if limited ≠ "" then whole ++ "." ++ limited else whole

/-- The resolution-and-display section of the current
`formatTokenAmount` (lines 68–88), after the amount has been normalized
to `i`: a truthy `tokenAddress` that resolves scales by the resolved
decimals with six-digit fraction truncation and the resolved symbol;
otherwise the 18-decimals `tokens` fallback. -/
def formatConvertedAmount (i : Int) (tokenAddress : Value) (chainId : Option String)
    (reg : RegistryState) : String :=
  let tokenInfo :=
    if tokenAddress.jsTruthy then resolveToken reg tokenAddress (chainOpt chainId)
    else none
  match tokenInfo with
  | some info => truncFrac6 (formatUnits i info.decimals) ++ " " ++ info.symbol
  | none => formatUnits i 18 ++ " tokens"

/-- `formatTokenAmount(amount, tokenAddress?, chainId?)`, current
revision: the full-balance sentinel check on big-number records runs
before any conversion; string sentinels and unparseable strings return
early inside the conversion; `none` models a thrown error
(`BigInt(hex)` on a malformed record). -/
def formatTokenAmount (amount tokenAddress : Value) (chainId : Option String)
    (reg : RegistryState) : Option String :=
  if isBigNumberLike amount && isCtBalanceHex (bnHexValue amount) then
    some ctBalanceMarker
  else
    match amountToBigInt amount with
    | .retStr s => some s
    | .err => none
    | .val i => some (formatConvertedAmount i tokenAddress chainId reg)

/-! ## Path rendering (`formatV2Path` / `formatV3Path` / `formatV4Path`) -/

/-- `token?.symbol || alt`: a resolved non-empty symbol, else the
(possibly throwing) alternative. -/
def symbolOr (tok : Option TokenInfo) (alt : Option String) : Option String :=
  match tok with
  | some t => if t.symbol = "" then alt else some t.symbol
  | none => alt

/-- `token?.symbol || alt` when the alternative is an already-computed
string. -/
def symbolOrStr (tok : Option TokenInfo) (alt : String) : String :=
  match tok with
  | some t => if t.symbol = "" then alt else t.symbol
  | none => alt

/-- The printed form of `fee / 10000` for an integral JS number `fee`:
exact division by `10^4`, fraction digits without trailing zeros.  (For
the fee magnitudes that occur, JS shortest-round-trip float printing
coincides with the exact decimal.) -/
def divTenThousandRepr (n : Int) : String :=
  let frs := trimTrailingZeros (padStart (n.natAbs % 10000).repr 4 '0')
  (if n < 0 then "-" else "")
    ++ (n.natAbs / 10000).repr
    ++ (if frs = "" then "" else "." ++ frs)

/-- `${hop.fee / 10000}` on the decoded fee value.  A bigint fee would
throw (mixed bigint/number arithmetic); non-numeric truthy shapes print
`NaN` and do not occur in decoder output. -/
def jsDivTenThousand (v : Value) : Option String :=
  match v with
  | .vNum n => some (divTenThousandRepr n)
  | .vBool b => some (divTenThousandRepr (if b then 1 else 0))
  | .vBigInt _ => none
  | _ => some "NaN"

/-- `hop.fee ? ` (${hop.fee / 10000}%)` : ''`: the optional fee
annotation, with its leading space. -/
def feeStr (fee : Value) : Option String :=
  if fee.jsTruthy then (jsDivTenThousand fee).map (fun r => " (" ++ r ++ "%)")
  else some ""

/-- The per-address loop of `formatV2Path`: resolved symbol or truncated
address. -/
def v2Symbols (reg : RegistryState) (chainId : Option String) :
    List Value → Option (List String)
  | [] => some []
  | addr :: rest => do
    let sym ← symbolOr (resolveToken reg addr (chainOpt chainId)) (sliceVal addr)
    let restSyms ← v2Symbols reg chainId rest
    pure (sym :: restSyms)

/-- `formatV2Path`: each hop's symbol (or truncated address), joined with
the directional arrow. -/
def formatV2Path (path : List Value) (chainId : Option String)
    (reg : RegistryState) : Option String :=
  (v2Symbols reg chainId path).map (String.intercalate " → ")

/-- The per-hop loop of `formatV3Path`: an arrow, the optional fee
annotation, and the hop's output-token symbol. -/
def v3Steps (reg : RegistryState) (chainId : Option String) :
    List Value → Option (List String)
  | [] => some []
  | hop :: rest => do
    let symbol ← symbolOr
      (resolveToken reg (objField hop "tokenOut") (chainOpt chainId))
      (sliceVal (objField hop "tokenOut"))
    let fee ← feeStr (objField hop "fee")
    let restSteps ← v3Steps reg chainId rest
    pure (("→" ++ fee ++ " " ++ symbol) :: restSteps)

/-- `formatV3Path`: empty paths render empty; otherwise the first hop's
input-token symbol followed by one arrow step per hop, joined with
spaces. -/
def formatV3Path (path : List Value) (chainId : Option String)
    (reg : RegistryState) : Option String :=
  match path with
  | [] => some ""
  | firstHop :: _ => do
    let firstSym ← symbolOr
      (resolveToken reg (objField firstHop "tokenIn") (chainOpt chainId))
      (sliceVal (objField firstHop "tokenIn"))
    let steps ← v3Steps reg chainId path
    pure (String.intercalate " " (firstSym :: steps))

/-- The per-hop loop of `formatV4Path`: hops lacking a truthy
`intermediateCurrency` are skipped; resolved symbols default to
`Unknown`; the fee annotation follows the symbol. -/
def v4Steps (reg : RegistryState) (chainId : Option String) :
    List Value → Option (List String)
  | [] => some []
  | hop :: rest => do
    let restSteps ← v4Steps reg chainId rest
    if (objField hop "intermediateCurrency").jsTruthy then do
      let symbol := symbolOrStr
        (resolveToken reg (objField hop "intermediateCurrency") (chainOpt chainId))
        "Unknown"
      let fee ← feeStr (objField hop "fee")
      pure (("→ " ++ symbol ++ fee) :: restSteps)
    else pure restSteps

/-- `formatV4Path`: the non-skipped hop steps joined with spaces. -/
def formatV4Path (path : List Value) (chainId : Option String)
    (reg : RegistryState) : Option String :=
  (v4Steps reg chainId path).map (String.intercalate " ")

/-! ## `formatSwapObject` (current revision) -/

/-- `obj.currencyIn === '0x0000…0000' ? 'Native ETH' : truncated`, the
eagerly-computed fallback label for a currency field (throws on a
truthy non-string). -/
def currencyAddrLabel (currency : Value) : Option String :=
  match currency with
  | .vStr s => if s = zeroAddress then some "Native ETH" else some (addrShort s)
  | _ => sliceVal currency

/-- The `outputToken` selection of the current `formatSwapObject`: the
first path hop's `intermediateCurrency` when a non-empty `path` array is
present, overridden by `currencyOut` whenever that is truthy. -/
def swapOutputToken (obj : Value) : Value :=
  let fromPath :=
    if (objField obj "path").jsTruthy then
      match objField obj "path" with
      | .vArr (firstHop :: _) => objField firstHop "intermediateCurrency"
      | _ => .vUndefined
    else .vUndefined
  if (objField obj "currencyOut").jsTruthy then objField obj "currencyOut"
  else fromPath

/-- The `try` body of the current `formatSwapObject`: the `From:`/`To:`
lines, the three amount lines (`amountIn` scaled by `currencyIn`,
`amountOut` and `amountOutMinimum` by `outputToken || currencyOut`), and
the `Path:` line; `none` models a thrown error, caught by the function's
own `catch`. -/
def swapBody (obj : Value) (chainId : Option String) (reg : RegistryState) :
    Option String := do
  let currencyIn := objField obj "currencyIn"
  let currencyOut := objField obj "currencyOut"
  let pIn ←
    if currencyIn.jsTruthy then do
      let token := resolveToken reg currencyIn (chainOpt chainId)
      let addr ← currencyAddrLabel currencyIn
      pure ["From: " ++ symbolOrStr token addr]
    else pure []
  let pOut ←
    if currencyOut.jsTruthy then do
      let token := resolveToken reg currencyOut (chainOpt chainId)
      let addr ← currencyAddrLabel currencyOut
      pure ["To: " ++ symbolOrStr token addr]
    else pure []
  let scaleToken := Value.jsOrVal (swapOutputToken obj) currencyOut
  let pAmtIn ←
    if (objField obj "amountIn").jsTruthy then do
      let f ← formatTokenAmount (objField obj "amountIn") currencyIn chainId reg
      pure ["Amount In: " ++ f]
    else pure []
  let pAmtOut ←
    if (objField obj "amountOut").jsTruthy then do
      let f ← formatTokenAmount (objField obj "amountOut") scaleToken chainId reg
      pure ["Amount Out: " ++ f]
    else pure []
  let pAmtMin ←
    if (objField obj "amountOutMinimum").jsTruthy then do
      let f ← formatTokenAmount (objField obj "amountOutMinimum") scaleToken chainId reg
      pure ["Min Out: " ++ f]
    else pure []
  let pPath ←
    match objField obj "path" with
    | .vArr hops =>
      if (Value.vArr hops).jsTruthy then do
        let pathDesc ← formatV4Path hops chainId reg
        pure (if pathDesc ≠ "" then ["Path: " ++ pathDesc] else [])
      else pure []
    | _ => pure []
  let parts := pIn ++ pOut ++ pAmtIn ++ pAmtOut ++ pAmtMin ++ pPath
  pure (if parts.isEmpty then "Swap Details" else String.intercalate "\n" parts)

/-- `formatSwapObject`, current revision: the body with its local
`catch`. -/
def formatSwapObject (obj : Value) (chainId : Option String)
    (reg : RegistryState) : String :=
  (swapBody obj chainId reg).getD "Error formatting swap details"

/-! ## `formatValueEnhanced` (current revision) -/

/-- `value === null || value === undefined`. -/
def isNullish (v : Value) : Bool :=
  match v with
  | .vNull => true
  | .vUndefined => true
  | _ => false

/-- Named-field-list element: an object carrying both `name` and
`value`. -/
def isNameValueObj (v : Value) : Bool :=
  isObjWithKey v "name" && isObjWithKey v "value"

/-- Address-path element: a 42-character `0x`-prefixed string. -/
def isV2Addr (v : Value) : Bool :=
  match v with
  | .vStr s => strStartsWith s "0x" && s.length == 42
  | _ => false

/-- Fee-tier-path element: an object carrying `tokenIn` and `tokenOut`. -/
def isV3Hop (v : Value) : Bool :=
  isObjWithKey v "tokenIn" && isObjWithKey v "tokenOut"

/-- Intermediate-currency-path element: an object carrying
`intermediateCurrency`. -/
def isV4Hop (v : Value) : Bool :=
  isObjWithKey v "intermediateCurrency"

mutual

/-- Nesting depth of a value; it strictly bounds the recursion depth of
`formatValueEnhanced`, whose recursion is fuel-indexed below so that it
stays kernel-computable. -/
def valueDepth : Value → Nat
  | .vArr elems => valueListDepth elems + 1
  | .vObj fields => fieldListDepth fields + 1
  | _ => 1

def valueListDepth : List Value → Nat
  | [] => 0
  | v :: rest => max (valueDepth v) (valueListDepth rest)

def fieldListDepth : List (String × Value) → Nat
  | [] => 0
  | (_, v) :: rest => max (valueDepth v) (fieldListDepth rest)

end

/-- The named-field-list loop of `formatValueEnhanced`, abstracted over
the recursive call: each element is formatted through `fmt` (applied to
its `value` field) and rendered as a `name: formatted` line. -/
def namedPartsGo (fmt : Value → Option (String × String)) :
    List Value → Option (List String)
  | [] => some []
  | item :: rest => do
    let itemResult ← fmt (objField item "value")
    let restParts ← namedPartsGo fmt rest
    pure ((jsToString (objField item "name") ++ ": " ++ itemResult.1) :: restParts)

/-- `formatValueEnhanced(_name, value, chainId?, contextToken?)`, current
revision, with an explicit recursion-depth fuel (the recursion descends
through a field lookup, which is not structural; `valueDepth` makes the
zero-fuel branch unreachable from the wrapper — see `fveFuel_eq_fve`).
The `_name` argument is unused by the source and dropped.  `raw` is
`JSON.stringify(value, null, 2)`, computed before the `try` block, so a
serialization throw (bigint input) rejects the whole call (`none`);
every throw inside the `try` is converted by the `catch` into the
generic error display paired with the already-computed `raw`. -/
def fveFuel : Nat → Value → Option String → Value → RegistryState →
    Option (String × String)
  | 0, _, _, _, _ => none
  | fuel + 1, value, chainId, contextToken, reg =>
    match jsonStringify2 value with
    | .err => none
    | out =>
      let raw := match out with | .ok s => s | _ => "undefined"
      let body : Option (String × String) :=
        if isNullish value then some ("null", "null")
        else if isBigNumberLike value then
          (formatTokenAmount value contextToken chainId reg).map (fun f => (f, raw))
        else
          match value with
          | .vArr elems =>
            if elems.isEmpty then some ("[]", "[]")
            else if elems.all isNameValueObj then
              (namedPartsGo (fun w => fveFuel fuel w chainId .vUndefined reg) elems).map
                (fun parts => (String.intercalate "\n" parts, raw))
            else if elems.all isV2Addr then
              (formatV2Path elems chainId reg).map (fun d => (d, raw))
            else if elems.all isV3Hop then
              (formatV3Path elems chainId reg).map (fun d => (d, raw))
            else if elems.all isV4Hop then
              (formatV4Path elems chainId reg).map (fun d => (d, raw))
            else some ("Array with " ++ (List.length elems).repr ++ " items", raw)
          | .vObj fields =>
            if hasKey fields "currencyIn" || hasKey fields "currencyOut"
                || hasKey fields "path" then
              some (formatSwapObject (.vObj fields) chainId reg, raw)
            else some ("Object", raw)
          | .vStr s =>
            if strStartsWith s "0x" && s.length == 42 then
              match resolveToken reg (.vStr s) (chainOpt chainId) with
              | some t => some (t.symbol ++ " (" ++ addrShort s ++ ")", s)
              | none => some (addrShort s, s)
            else some (s, s)
          | other => some (jsToString other, jsToString other)
      some (body.getD ("Error formatting value", raw))

/-- `formatValueEnhanced`, current revision: the fuel-indexed body run
with enough fuel for the whole value. -/
def formatValueEnhanced (value : Value) (chainId : Option String)
    (contextToken : Value) (reg : RegistryState) : Option (String × String) :=
  fveFuel (valueDepth value) value chainId contextToken reg

/-- The named-field-list loop with the recursive call instantiated, as
in the source. -/
def namedParts (items : List Value) (chainId : Option String)
    (reg : RegistryState) : Option (List String) :=
  namedPartsGo (fun w => formatValueEnhanced w chainId .vUndefined reg) items

theorem valueDepth_pos (v : Value) : 1 ≤ valueDepth v := by
  cases v <;> simp [valueDepth]

theorem valueDepth_le_of_mem {v : Value} {elems : List Value} (h : v ∈ elems) :
    valueDepth v ≤ valueListDepth elems := by
  induction elems with
  | nil => cases h
  | cons head rest ih =>
    rcases List.mem_cons.mp h with h' | h'
    · subst h'
      simp [valueListDepth]
    · calc valueDepth v ≤ valueListDepth rest := ih h'
        _ ≤ valueListDepth (head :: rest) := by simp [valueListDepth]

theorem valueDepth_lookupField_le (fields : List (String × Value)) (key : String) :
    valueDepth (lookupField fields key) ≤ max 1 (fieldListDepth fields) := by
  induction fields with
  | nil => simp [lookupField, valueDepth]
  | cons f rest ih =>
    obtain ⟨k, v⟩ := f
    simp only [lookupField]
    split
    · have : valueDepth v ≤ fieldListDepth ((k, v) :: rest) := by
        simp [fieldListDepth]
      omega
    · have hmono : fieldListDepth rest ≤ fieldListDepth ((k, v) :: rest) := by
        simp [fieldListDepth]
      omega

theorem valueDepth_objField_le (v : Value) (key : String) :
    valueDepth (objField v key) ≤ valueDepth v := by
  cases v <;> simp only [objField] <;> try simp [valueDepth]
  case vObj fields =>
    have h := valueDepth_lookupField_le fields key
    have : valueDepth (Value.vObj fields) = fieldListDepth fields + 1 := by
      simp [valueDepth]
    omega

theorem namedPartsGo_congr {fmt₁ fmt₂ : Value → Option (String × String)}
    (items : List Value)
    (h : ∀ item ∈ items, fmt₁ (objField item "value") = fmt₂ (objField item "value")) :
    namedPartsGo fmt₁ items = namedPartsGo fmt₂ items := by
  induction items with
  | nil => rfl
  | cons item rest ih =>
    simp only [namedPartsGo]
    rw [h item (List.mem_cons_self item rest),
      ih (fun x hx => h x (List.mem_cons_of_mem item hx))]

/-- Fuel irrelevance: with at least `valueDepth value` fuel, the
fuel-indexed body agrees with the wrapper — the zero-fuel branch is
unreachable. -/
theorem fveFuel_eq_fve (fuel : Nat) :
    ∀ (value : Value) (chainId : Option String) (contextToken : Value)
      (reg : RegistryState), valueDepth value ≤ fuel →
      fveFuel fuel value chainId contextToken reg
        = formatValueEnhanced value chainId contextToken reg := by
  induction fuel using Nat.strong_induction_on with
  | _ fuel ih =>
    intro value chainId contextToken reg hle
    have hpos := valueDepth_pos value
    obtain ⟨f, rfl⟩ : ∃ f, fuel = f + 1 := ⟨fuel - 1, by omega⟩
    obtain ⟨d, hd⟩ : ∃ d, valueDepth value = d + 1 := ⟨valueDepth value - 1, by omega⟩
    unfold formatValueEnhanced
    rw [hd]
    cases value with
    | vArr elems =>
      show fveFuel (f + 1) (.vArr elems) chainId contextToken reg
        = fveFuel (d + 1) (.vArr elems) chainId contextToken reg
      simp only [fveFuel]
      have hnamed :
          namedPartsGo (fun w => fveFuel f w chainId .vUndefined reg) elems
            = namedPartsGo (fun w => fveFuel d w chainId .vUndefined reg) elems := by
        have hstep : ∀ g, g ≤ f → valueDepth (Value.vArr elems) ≤ g + 1 →
            namedPartsGo (fun w => fveFuel g w chainId .vUndefined reg) elems
              = namedPartsGo
                  (fun w => formatValueEnhanced w chainId .vUndefined reg) elems := by
          intro g hgf hg
          apply namedPartsGo_congr
          intro item hitem
          have h1 : valueDepth (objField item "value") ≤ valueDepth item :=
            valueDepth_objField_le item "value"
          have h2 : valueDepth item ≤ valueListDepth elems := valueDepth_le_of_mem hitem
          have h3 : valueDepth (Value.vArr elems) = valueListDepth elems + 1 := by
            simp [valueDepth]
          exact ih g (by omega) _ _ _ _ (by omega)
        rw [hstep f (by omega) (by omega), hstep d (by omega) (by omega)]
      rw [hnamed]
    | vNull => rfl
    | vUndefined => rfl
    | vBool b => rfl
    | vNum n => rfl
    | vStr s => rfl
    | vBigInt n => rfl
    | vObj fields => rfl

theorem namedParts_eq_fuel (elems : List Value) (chainId : Option String)
    (reg : RegistryState) (fuel : Nat) (h : valueListDepth elems ≤ fuel) :
    namedPartsGo (fun w => fveFuel fuel w chainId .vUndefined reg) elems
      = namedParts elems chainId reg := by
  unfold namedParts
  apply namedPartsGo_congr
  intro item hitem
  have h1 : valueDepth (objField item "value") ≤ valueDepth item :=
    valueDepth_objField_le item "value"
  have h2 : valueDepth item ≤ valueListDepth elems := valueDepth_le_of_mem hitem
  exact fveFuel_eq_fve fuel _ _ _ _ (by omega)

/-! ## The older formatter revision (no chain id, no sentinel check) -/

namespace Legacy

/-- The conversion section of the older `formatTokenAmount` (lines
38–51): identical to the current one except that no `CONTRACT_BALANCE`
check exists anywhere, so the sentinel string is parsed like any hex
literal. -/
def amountToBigInt (amount : Value) : JsConv :=
  if isBigNumberLike amount then
    match bigNumberToBigInt amount with
    | some i => .val i
    | none => .err
  else
    match amount with
    | .vStr s =>
      match jsBigIntOfString s with
      | some i => .val i
      | none => .retStr s
    | .vBigInt n => .val n
    | .vNum n => .val n
    | _ => .err

/-- `formatTokenAmount(amount, tokenAddress?)`, older revision: no
sentinel handling and no chain id (resolution is always
network-agnostic). -/
def formatTokenAmount (amount tokenAddress : Value) (reg : RegistryState) :
    Option String :=
  match Legacy.amountToBigInt amount with
  | .retStr s => some s
  | .err => none
  | .val i => some (formatConvertedAmount i tokenAddress none reg)

/-- `formatPath`, older revision: textually the intermediate-currency
hop loop of the current `formatV4Path`, always resolving without a chain
id. -/
def formatPath (path : List Value) (reg : RegistryState) : Option String :=
  formatV4Path path none reg

/-- `formatSwapObject`, older revision: same line structure as the
current one, but with no `outputToken` extraction — `amountOut` and
`amountOutMinimum` are scaled by `currencyOut` alone (even when absent),
and every resolution is network-agnostic. -/
def swapBody (obj : Value) (reg : RegistryState) : Option String := do
  let currencyIn := objField obj "currencyIn"
  let currencyOut := objField obj "currencyOut"
  let pIn ←
    if currencyIn.jsTruthy then do
      let token := resolveToken reg currencyIn none
      let addr ← currencyAddrLabel currencyIn
      pure ["From: " ++ symbolOrStr token addr]
    else pure []
  let pOut ←
    if currencyOut.jsTruthy then do
      let token := resolveToken reg currencyOut none
      let addr ← currencyAddrLabel currencyOut
      pure ["To: " ++ symbolOrStr token addr]
    else pure []
  let pAmtIn ←
    if (objField obj "amountIn").jsTruthy then do
      let f ← Legacy.formatTokenAmount (objField obj "amountIn") currencyIn reg
      pure ["Amount In: " ++ f]
    else pure []
  let pAmtOut ←
    if (objField obj "amountOut").jsTruthy then do
      let f ← Legacy.formatTokenAmount (objField obj "amountOut") currencyOut reg
      pure ["Amount Out: " ++ f]
    else pure []
  let pAmtMin ←
    if (objField obj "amountOutMinimum").jsTruthy then do
      let f ← Legacy.formatTokenAmount (objField obj "amountOutMinimum") currencyOut reg
      pure ["Min Out: " ++ f]
    else pure []
  let pPath ←
    match objField obj "path" with
    | .vArr hops =>
      if (Value.vArr hops).jsTruthy then do
        let pathDesc ← Legacy.formatPath hops reg
        pure (if pathDesc ≠ "" then ["Path: " ++ pathDesc] else [])
      else pure []
    | _ => pure []
  let parts := pIn ++ pOut ++ pAmtIn ++ pAmtOut ++ pAmtMin ++ pPath
  pure (if parts.isEmpty then "Swap Details" else String.intercalate "\n" parts)

/-- `formatSwapObject`, older revision, with its local `catch`. -/
def formatSwapObject (obj : Value) (reg : RegistryState) : String :=
  (Legacy.swapBody obj reg).getD "Error formatting swap details"

end Legacy

/-! ## Spec-side definitions and concrete sample data for the
verification -/

/-- The `raw` component of a formatter result. -/
def rawOf (r : Option (String × String)) : Option String := r.map Prod.snd

/-- The value-only characterization of the formatter's `raw` output:
`null` for nullish inputs, the bare (unquoted) string for string inputs,
the JS coercion for other scalars, and `JSON.stringify(value, null, 2)`
for everything else (with a serialization throw rejecting the call).  A
pure function of the input value — no Registry state occurs in it. -/
def rawSpec (v : Value) : Option String :=
  match v with
  | .vUndefined => some "null"
  | .vStr s => some s
  | .vBool b => some (if b then "true" else "false")
  | .vNum n => some n.repr
  | _ =>
    match jsonStringify2 v with
    | .ok s => some s
    | .undefOut => some "null"
    | .err => none

/-- A canonical big-number-like record carrying the given hex string. -/
def mkBigNumberHex (h : String) : Value :=
  .vObj [("type", .vStr "BigNumber"), ("hex", .vStr h)]

/-- One rendered hop of a fee-tier path, in the spec's terms: an arrow
annotated with the fee divided by 10 000 expressed as a percentage,
followed by the hop's output-token symbol. -/
def feeArrowStep (p : Int × String) : String :=
  "→ (" ++ divTenThousandRepr p.1 ++ "%) " ++ p.2

/-- A mainnet USDC-style contract address (lowercase). -/
def usdcAddress : String := "0xa0b86991c6218b36c1d19d4a2e9eb0ce3606eb48"

/-- Sample token address A. -/
def addrA : String := "0xaaaaaaaaaaaaaaaaaaaaaaaaaaaaaaaaaaaaaaaa"

/-- Sample token address B. -/
def addrB : String := "0xbbbbbbbbbbbbbbbbbbbbbbbbbbbbbbbbbbbbbbbb"

/-- A sample remote payload: network `1` carrying a 6-decimals USDC. -/
def usdcNetworks : List LayerSwapNetwork :=
  [⟨"1", [⟨"USDC", some usdcAddress, 6, "", 1⟩]⟩]

/-- The registry after a successful fetch of `usdcNetworks`. -/
def regUsdc : RegistryState :=
  completeFetch (.success usdcNetworks) (fetchLayerSwapData registryInit)

/-- A sample remote payload carrying two resolvable path tokens. -/
def pathNetworks : List LayerSwapNetwork :=
  [⟨"1", [⟨"SYMBOL_A", some addrA, 18, "", 0⟩, ⟨"SYMBOL_B", some addrB, 18, "", 0⟩]⟩]

/-- The registry after a successful fetch of `pathNetworks`. -/
def regPath : RegistryState :=
  completeFetch (.success pathNetworks) (fetchLayerSwapData registryInit)

/-- A payload in which the same contract appears on two networks with
different symbols, so the scoped key `1:addr` and the agnostic key
`addr` end up cached with different metadata. -/
def twoKeyNetworks : List LayerSwapNetwork :=
  [⟨"1", [⟨"SCOPED", some usdcAddress, 6, "", 0⟩]⟩,
   ⟨"2", [⟨"GLOBAL", some usdcAddress, 18, "", 0⟩]⟩]

/-- The registry after a successful fetch of `twoKeyNetworks`. -/
def regTwoKeys : RegistryState :=
  completeFetch (.success twoKeyNetworks) (fetchLayerSwapData registryInit)

/-- The registry after its single fetch attempt failed. -/
def regFailed : RegistryState :=
  completeFetch .failure (fetchLayerSwapData registryInit)

/-- `2^255`, the numeric value of the full-balance sentinel, in decimal. -/
def pow255Decimal : String :=
  "57896044618658097711785492504343953926634992332820282019728792003956564819968"

/-! ## C4 — single-flight fetch -/

/-- C4: any number `n ≥ 1` of resolution-driven `fetchLayerSwapData`
entries issued before the fetch settles leaves exactly one outbound
request and the very state a single entry leaves (all callers share the
one in-flight fetch); once that fetch resolves, the cache is the fully
built one, the request count stays at one, and no later entry ever
starts another fetch. -/
theorem c4_single_flight_fetch (n : Nat) (hn : 1 ≤ n) :
    (fetchLayerSwapData^[n] registryInit).requestCount = 1 ∧
    fetchLayerSwapData^[n] registryInit = fetchLayerSwapData registryInit ∧
    ∀ d : List LayerSwapNetwork,
      (completeFetch (.success d) (fetchLayerSwapData^[n] registryInit)).tokenCache
        = buildTokenCache [] d ∧
      (completeFetch (.success d) (fetchLayerSwapData^[n] registryInit)).requestCount = 1 ∧
      ∀ k : Nat,
        fetchLayerSwapData^[k]
            (completeFetch (.success d) (fetchLayerSwapData^[n] registryInit))
          = completeFetch (.success d) (fetchLayerSwapData^[n] registryInit) := by
  obtain ⟨m, rfl⟩ : ∃ m, n = m + 1 := ⟨n - 1, (Nat.succ_pred_eq_of_pos hn).symm⟩
  have h2 : fetchLayerSwapData^[m + 1] registryInit = fetchLayerSwapData registryInit := by
    rw [Function.iterate_succ_apply]
    exact Function.iterate_fixed rfl m
  refine ⟨by rw [h2]; rfl, h2, fun d => ⟨by rw [h2]; rfl, by rw [h2]; rfl, fun k => ?_⟩⟩
  rw [h2]
  exact Function.iterate_fixed rfl k

/-- C4 witness: fifty concurrent entries, then a successful fetch of the
sample payload. -/
theorem c4_single_flight_fetch_witness :
    (fetchLayerSwapData^[50] registryInit).requestCount = 1 ∧
    (completeFetch (.success usdcNetworks) (fetchLayerSwapData^[50] registryInit)).tokenCache
      = buildTokenCache [] usdcNetworks := by
  have h := c4_single_flight_fetch 50 (by decide)
  exact ⟨h.1, (h.2.2 usdcNetworks).1⟩

/-! ## C5 — failure leaves a permanent loaded-but-empty registry -/

/-- C5: after the single fetch fails, the registry is loaded-but-empty
(`networksData = []`, empty cache), no later `fetchLayerSwapData` entry
retries (the request count stays at the one issued request), and every
resolution of a well-formed non-native address returns `none` rather
than an error. -/
theorem c5_fetch_failure_loaded_but_empty :
    regFailed.networksData = some [] ∧
    regFailed.tokenCache = [] ∧
    regFailed.requestCount = 1 ∧
    (∀ k : Nat, fetchLayerSwapData^[k] regFailed = regFailed) ∧
    ∀ (a : String) (cid : Option String), isAddressStr a = true → a ≠ zeroAddress →
      resolveToken regFailed (.vStr a) cid = none := by
  refine ⟨rfl, rfl, rfl, fun k => Function.iterate_fixed rfl k, fun a cid ha hz => ?_⟩
  have hlen : a.length = 42 := by
    simp only [isAddressStr, Bool.and_eq_true, beq_iff_eq] at ha
    exact ha.1.1.1
  have hne : a ≠ "" := by
    intro h
    rw [h] at hlen
    simp at hlen
  simp only [resolveToken, Value.jsFalsy, beq_iff_eq]
  rw [if_neg (by simpa using hne), if_neg hz, if_neg (by simp [ha])]
  cases cid with
  | none => simp [cacheGet, regFailed, fetchLayerSwapData, registryInit, completeFetch]
  | some c =>
    by_cases hc : c = "" <;>
      simp [hc, cacheGet, regFailed, fetchLayerSwapData, registryInit, completeFetch]

/-- C5 witness: after a failed fetch, seven more resolution-driven
entries change nothing and USDC resolution reports not-found. -/
theorem c5_fetch_failure_witness :
    fetchLayerSwapData^[7] regFailed = regFailed ∧
    resolveToken regFailed (.vStr usdcAddress) (some "1") = none := by
  have h := c5_fetch_failure_loaded_but_empty
  exact ⟨h.2.2.2.1 7, h.2.2.2.2 usdcAddress (some "1") (by decide) (by decide)⟩

/-! ## C6 — chain-scoped key precedence -/

/-- C6: for a well-formed non-native address and a truthy network id,
`resolveToken` returns the entry cached under the scoped key
`networkId:lowercasedAddress` whenever one exists — regardless of what
the network-agnostic key holds — and falls back to the agnostic key
exactly when the scoped key misses. -/
theorem c6_scoped_key_precedence (reg : RegistryState) (a nid : String)
    (ha : isAddressStr a = true) (hz : a ≠ zeroAddress) (hn : nid ≠ "") :
    (∀ t1 : TokenInfo,
      cacheGet reg.tokenCache (nid ++ ":" ++ toLowerStr a) = some t1 →
      resolveToken reg (.vStr a) (some nid) = some t1) ∧
    (cacheGet reg.tokenCache (nid ++ ":" ++ toLowerStr a) = none →
      resolveToken reg (.vStr a) (some nid) = cacheGet reg.tokenCache (toLowerStr a)) := by
  have hlen : a.length = 42 := by
    simp only [isAddressStr, Bool.and_eq_true, beq_iff_eq] at ha
    exact ha.1.1.1
  have hne : a ≠ "" := by
    intro h
    rw [h] at hlen
    simp at hlen
  constructor
  · intro t1 hget
    simp only [resolveToken, Value.jsFalsy, beq_iff_eq]
    rw [if_neg (by simpa using hne), if_neg hz, if_neg (by simp [ha]), if_neg hn, hget]
  · intro hget
    simp only [resolveToken, Value.jsFalsy, beq_iff_eq]
    rw [if_neg (by simpa using hne), if_neg hz, if_neg (by simp [ha]), if_neg hn, hget]

/-- C6 witness: in `regTwoKeys` the scoped key `1:usdcAddress` holds the
`SCOPED` entry and the agnostic key the `GLOBAL` entry, and explicit
resolution on network `1` returns the scoped one. -/
theorem c6_scoped_key_precedence_witness :
    resolveToken regTwoKeys (.vStr usdcAddress) (some "1")
      = some ⟨"SCOPED", 6, "", some usdcAddress, 0⟩ ∧
    cacheGet regTwoKeys.tokenCache (toLowerStr usdcAddress)
      = some ⟨"GLOBAL", 18, "", some usdcAddress, 0⟩ := by
  refine ⟨(c6_scoped_key_precedence regTwoKeys usdcAddress "1" (by decide) (by decide)
    (by decide)).1 _ (by decide), by decide⟩

/-! ## C1 — full-balance sentinel rendering -/

/-- C1 counterexample: the older `formatTokenAmount` (the second
implementation the claim covers) has no sentinel check at all — the bare
sentinel string renders as the 18-decimals scaling of `2^255`, not as the
fixed marker. -/
theorem c1_counterexample :
    Legacy.formatTokenAmount (.vStr CONTRACT_BALANCE) .vUndefined registryInit
      = some ("57896044618658097711785492504343953926634992332820282019728.792003956564819968 tokens")
    ∧ ("57896044618658097711785492504343953926634992332820282019728.792003956564819968 tokens" : String)
      ≠ ctBalanceMarker := by
  exact ⟨by decide, by decide⟩

/-- C1 (amended): in the current, chainId-aware `formatTokenAmount`, a
full-balance sentinel — the bare sentinel string, or a big-number-like
record whose extracted `hex`/`_hex` equals the sentinel string — always
yields the fixed marker, for every token-address context, chain id and
registry state. -/
theorem c1_sentinel_always_marker (amount tokenAddress : Value)
    (chainId : Option String) (reg : RegistryState)
    (h : amount = .vStr CONTRACT_BALANCE ∨
      (isBigNumberLike amount = true ∧ bnHexValue amount = .vStr CONTRACT_BALANCE)) :
    formatTokenAmount amount tokenAddress chainId reg = some ctBalanceMarker := by
  rcases h with h | ⟨h1, h2⟩
  · subst h
    rfl
  · have hct : isCtBalanceHex (bnHexValue amount) = true := by
      rw [h2]
      simp [isCtBalanceHex]
    simp [formatTokenAmount, h1, hct]

/-- C1 witness: both sentinel forms at a fully concrete context. -/
theorem c1_sentinel_always_marker_witness :
    formatTokenAmount (.vStr CONTRACT_BALANCE) (.vStr usdcAddress) (some "1") regUsdc
      = some ctBalanceMarker
    ∧ formatTokenAmount (.vObj [("type", .vStr "BigNumber"), ("_hex", .vStr CONTRACT_BALANCE)])
        (.vStr usdcAddress) (some "1") regUsdc = some ctBalanceMarker :=
  ⟨c1_sentinel_always_marker _ _ _ _ (Or.inl rfl),
   c1_sentinel_always_marker _ _ _ _ (Or.inr ⟨rfl, rfl⟩)⟩

/-! ## C2 — agreement of the three big-amount encodings -/

/-- C2 counterexample: at `n = 2^255`, the decimal-string encoding and
the canonical hex-record encoding denote the same integer, yet the
current `formatTokenAmount` renders the string as a scaled numeric
amount and the record as the sentinel marker — the displays differ. -/
theorem c2_counterexample :
    jsBigIntOfString pow255Decimal = some ((2 : Int) ^ 255)
    ∧ jsBigIntOfString CONTRACT_BALANCE = some ((2 : Int) ^ 255)
    ∧ formatTokenAmount (.vStr pow255Decimal) .vUndefined none registryInit
      = some ("57896044618658097711785492504343953926634992332820282019728.792003956564819968 tokens")
    ∧ formatTokenAmount (mkBigNumberHex CONTRACT_BALANCE) .vUndefined none registryInit
      = some ctBalanceMarker
    ∧ ("57896044618658097711785492504343953926634992332820282019728.792003956564819968 tokens" : String)
      ≠ ctBalanceMarker := by
  exact ⟨by decide, by decide, by decide, by decide, by decide⟩

/-- C2 (amended): in the current `formatTokenAmount`, whenever the
decimal string `s` and the record hex `h` both `BigInt`-parse to the
same integer `i` and neither is the sentinel string, all three
encodings — record, string, and native bigint — produce the same
display, for every context. -/
theorem c2_encodings_agree (i : Int) (s h : String)
    (tokenAddress : Value) (chainId : Option String) (reg : RegistryState)
    (hs : jsBigIntOfString s = some i) (hsne : s ≠ CONTRACT_BALANCE)
    (hh : jsBigIntOfString h = some i) (hhne : h ≠ CONTRACT_BALANCE) :
    formatTokenAmount (mkBigNumberHex h) tokenAddress chainId reg
      = some (formatConvertedAmount i tokenAddress chainId reg)
    ∧ formatTokenAmount (.vStr s) tokenAddress chainId reg
      = some (formatConvertedAmount i tokenAddress chainId reg)
    ∧ formatTokenAmount (.vBigInt i) tokenAddress chainId reg
      = some (formatConvertedAmount i tokenAddress chainId reg) := by
  have hbn : isBigNumberLike (mkBigNumberHex h) = true := by
    simp [mkBigNumberHex, isBigNumberLike, hasKey, lookupField]
  refine ⟨?_, ?_, ?_⟩
  · by_cases hemp : h = ""
    · subst hemp
      have hi : i = 0 := by
        have : (some (0 : Int)) = some i := hh
        exact (Option.some_inj.mp this).symm
      subst hi
      rfl
    · have hhex : bnHexValue (mkBigNumberHex h) = .vStr h := by
        simp [mkBigNumberHex, bnHexValue, objField, lookupField, Value.jsOrVal,
          Value.jsTruthy, Value.jsFalsy, hemp]
      have hct : isCtBalanceHex (bnHexValue (mkBigNumberHex h)) = false := by
        rw [hhex]
        simp [isCtBalanceHex, hhne]
      have hconv : amountToBigInt (mkBigNumberHex h) = .val i := by
        simp [amountToBigInt, hbn, bigNumberToBigInt, hhex, Value.jsFalsy, hemp,
          jsBigIntOfValue, hh]
      simp [formatTokenAmount, hbn, hct, hconv]
  · have hbns : isBigNumberLike (.vStr s) = false := rfl
    have hconv : amountToBigInt (.vStr s) = .val i := by
      simp [amountToBigInt, hbns, hsne, hs]
    simp [formatTokenAmount, hbns, hconv]
  · rfl

/-- C2 witness: the three encodings of `10^18` under the USDC context
render identically. -/
theorem c2_encodings_agree_witness :
    formatTokenAmount (mkBigNumberHex "0x0de0b6b3a7640000") (.vStr usdcAddress) (some "1") regUsdc
      = formatTokenAmount (.vStr "1000000000000000000") (.vStr usdcAddress) (some "1") regUsdc
    ∧ formatTokenAmount (.vStr "1000000000000000000") (.vStr usdcAddress) (some "1") regUsdc
      = formatTokenAmount (.vBigInt 1000000000000000000) (.vStr usdcAddress) (some "1") regUsdc := by
  have hc := c2_encodings_agree 1000000000000000000 "1000000000000000000" "0x0de0b6b3a7640000"
    (.vStr usdcAddress) (some "1") regUsdc (by decide) (by decide) (by decide) (by decide)
  exact ⟨hc.1.trans hc.2.1.symm, hc.2.1.trans hc.2.2.symm⟩

/-! ## C8 — contextual-currency scaling with six-digit truncation

The dot-split algebra below makes the truncation conjuncts of C8
independent of the code's own string plumbing. -/

theorem splitDotChars_ne_nil (cs : List Char) : splitDotChars cs ≠ [] := by
  induction cs with
  | nil => simp [splitDotChars]
  | cons c rest ih =>
    simp only [splitDotChars]
    split <;> simp

theorem mem_splitDotChars_no_dot (cs : List Char) :
    ∀ seg ∈ splitDotChars cs, '.' ∉ seg := by
  induction cs with
  | nil =>
    intro seg hseg
    simp only [splitDotChars, List.mem_singleton] at hseg
    subst hseg
    simp
  | cons c rest ih =>
    intro seg hseg
    simp only [splitDotChars] at hseg
    by_cases hc : c = '.'
    · rw [if_pos hc] at hseg
      rcases List.mem_cons.mp hseg with h | h
      · subst h
        simp
      · exact ih seg h
    · rw [if_neg hc] at hseg
      rcases List.mem_cons.mp hseg with h | h
      · subst h
        intro hmem
        rcases List.mem_cons.mp hmem with h' | h'
        · exact hc h'.symm
        · cases hrec : splitDotChars rest with
          | nil => exact absurd hrec (splitDotChars_ne_nil rest)
          | cons s0 ss =>
            rw [hrec] at h'
            exact ih s0 (hrec ▸ List.mem_cons_self s0 ss) (by simpa using h')
      · cases hrec : splitDotChars rest with
        | nil => exact absurd hrec (splitDotChars_ne_nil rest)
        | cons s0 ss =>
          rw [hrec] at h
          exact ih seg (hrec ▸ List.mem_cons_of_mem s0 (by simpa using h))

theorem splitDotChars_no_dot (cs : List Char) (h : '.' ∉ cs) :
    splitDotChars cs = [cs] := by
  induction cs with
  | nil => rfl
  | cons c rest ih =>
    have hc : ¬(c = '.') := fun he => h (by simp [he])
    have hrest : '.' ∉ rest := fun hm => h (List.mem_cons_of_mem _ hm)
    simp only [splitDotChars, ih hrest]
    rw [if_neg hc]
    rfl

theorem splitDotChars_append (w l : List Char) (hw : '.' ∉ w) :
    splitDotChars (w ++ '.' :: l) = w :: splitDotChars l := by
  induction w with
  | nil =>
    show (if ('.' : Char) = '.' then [] :: splitDotChars l
          else ('.' :: (splitDotChars l).headD []) :: (splitDotChars l).tail)
        = [] :: splitDotChars l
    rw [if_pos rfl]
  | cons c w' ih =>
    have hc : ¬(c = '.') := fun he => hw (by simp [he])
    have hw' : '.' ∉ w' := fun hm => hw (List.mem_cons_of_mem _ hm)
    show (if c = '.' then [] :: splitDotChars (w' ++ '.' :: l)
          else (c :: (splitDotChars (w' ++ '.' :: l)).headD [])
            :: (splitDotChars (w' ++ '.' :: l)).tail)
        = (c :: w') :: splitDotChars l
    rw [if_neg hc, ih hw']
    rfl

theorem wholePart_eq_of_splitDot {s w l : String} (h : splitDot s = [w, l]) :
    wholePart s = w := by
  unfold wholePart
  rw [h]
  rfl

theorem fracPart_eq_of_splitDot {s w l : String} (h : splitDot s = [w, l]) :
    fracPart s = l := by
  unfold fracPart
  rw [h]
  rfl

theorem wholePart_no_dot (w : String) (hw : '.' ∉ w.data) : wholePart w = w := by
  unfold wholePart splitDot
  rw [splitDotChars_no_dot w.data hw]
  rfl

theorem fracPart_no_dot (w : String) (hw : '.' ∉ w.data) : fracPart w = "" := by
  unfold fracPart splitDot
  rw [splitDotChars_no_dot w.data hw]
  rfl

theorem no_dot_wholePart (s : String) : '.' ∉ (wholePart s).data := by
  unfold wholePart splitDot
  cases hrec : splitDotChars s.data with
  | nil => exact absurd hrec (splitDotChars_ne_nil _)
  | cons seg segs =>
    simpa using mem_splitDotChars_no_dot s.data seg (hrec ▸ List.mem_cons_self seg segs)

theorem no_dot_fracPart (s : String) : '.' ∉ (fracPart s).data := by
  unfold fracPart splitDot
  cases hrec : splitDotChars s.data with
  | nil => exact absurd hrec (splitDotChars_ne_nil _)
  | cons seg segs =>
    cases segs with
    | nil => simp
    | cons s1 ss =>
      simpa using
        mem_splitDotChars_no_dot s.data s1
          (hrec ▸ List.mem_cons_of_mem seg (List.mem_cons_self s1 ss))

theorem splitDot_recompose (w l : String) (hw : '.' ∉ w.data) (hl : '.' ∉ l.data) :
    splitDot (w ++ "." ++ l) = [w, l] := by
  unfold splitDot
  have hdata : (w ++ "." ++ l).data = w.data ++ '.' :: l.data := by
    rw [String.data_append, String.data_append]
    simp
  rw [hdata, splitDotChars_append _ _ hw, splitDotChars_no_dot _ hl]
  rfl

/-- The spec-side characterization of the six-digit truncation: whole
part preserved, fractional part the first six characters of the original
fractional part, hence at most six characters long. -/
theorem truncFrac6_spec (x : String) :
    wholePart (truncFrac6 x) = wholePart x
    ∧ fracPart (truncFrac6 x) = takeChars (fracPart x) 6
    ∧ (fracPart (truncFrac6 x)).length ≤ 6 := by
  unfold truncFrac6
  by_cases hemp : takeChars (fracPart x) 6 = ""
  · rw [if_neg (not_ne_iff.mpr hemp)]
    refine ⟨wholePart_no_dot _ (no_dot_wholePart x), ?_, ?_⟩
    · rw [fracPart_no_dot _ (no_dot_wholePart x), hemp]
    · rw [fracPart_no_dot _ (no_dot_wholePart x)]
      simp
  · rw [if_pos hemp]
    have hw := no_dot_wholePart x
    have hl : '.' ∉ (takeChars (fracPart x) 6).data := by
      intro hm
      exact no_dot_fracPart x (List.take_subset 6 _ hm)
    have hsplit := splitDot_recompose (wholePart x) (takeChars (fracPart x) 6) hw hl
    refine ⟨wholePart_eq_of_splitDot hsplit, fracPart_eq_of_splitDot hsplit, ?_⟩
    rw [fracPart_eq_of_splitDot hsplit]
    show ((fracPart x).data.take 6).length ≤ 6
    simp

/-- C8: for any amount that normalizes to the integer `i` and is not the
sentinel, with a (non-empty) contextual currency: when the Registry
resolves it, the display is the resolved-decimals scaling, its
fractional part truncated (not rounded) to at most six characters of the
original fraction, with the resolved symbol appended; when resolution
fails, the display is the 18-decimals scaling labelled `tokens`. -/
theorem c8_contextual_scaling (amount : Value) (i : Int) (ta : String)
    (chainId : Option String) (reg : RegistryState)
    (hnosent : (isBigNumberLike amount && isCtBalanceHex (bnHexValue amount)) = false)
    (hconv : amountToBigInt amount = .val i)
    (hta : ta ≠ "") :
    (∀ info : TokenInfo, resolveToken reg (.vStr ta) (chainOpt chainId) = some info →
      formatTokenAmount amount (.vStr ta) chainId reg
        = some (truncFrac6 (formatUnits i info.decimals) ++ " " ++ info.symbol)
      ∧ fracPart (truncFrac6 (formatUnits i info.decimals))
          = takeChars (fracPart (formatUnits i info.decimals)) 6
      ∧ (fracPart (truncFrac6 (formatUnits i info.decimals))).length ≤ 6
      ∧ wholePart (truncFrac6 (formatUnits i info.decimals))
          = wholePart (formatUnits i info.decimals))
    ∧ (resolveToken reg (.vStr ta) (chainOpt chainId) = none →
      formatTokenAmount amount (.vStr ta) chainId reg
        = some (formatUnits i 18 ++ " tokens")) := by
  have htr : (Value.vStr ta).jsTruthy = true := by
    simp [Value.jsTruthy, Value.jsFalsy, hta]
  constructor
  · intro info hres
    have hfca : formatConvertedAmount i (.vStr ta) chainId reg
        = truncFrac6 (formatUnits i info.decimals) ++ " " ++ info.symbol := by
      simp [formatConvertedAmount, htr, hres]
    refine ⟨?_, (truncFrac6_spec _).2.1, (truncFrac6_spec _).2.2, (truncFrac6_spec _).1⟩
    simp [formatTokenAmount, hnosent, hconv, hfca]
  · intro hres
    have hfca : formatConvertedAmount i (.vStr ta) chainId reg
        = formatUnits i 18 ++ " tokens" := by
      simp [formatConvertedAmount, htr, hres]
    simp [formatTokenAmount, hnosent, hconv, hfca]

/-- C8 witness: the same amount scaled by USDC's six decimals on a
resolving registry and by the 18-decimals `tokens` fallback on the empty
one. -/
theorem c8_contextual_scaling_witness :
    formatTokenAmount (.vStr "12345678901234") (.vStr usdcAddress) (some "1") regUsdc
      = some "12345678.901234 USDC"
    ∧ formatTokenAmount (.vStr "12345678901234") (.vStr usdcAddress) none registryInit
      = some "0.000012345678901234 tokens" := by
  have h1 := (c8_contextual_scaling (.vStr "12345678901234") 12345678901234 usdcAddress
    (some "1") regUsdc (by decide) (by decide) (by decide)).1
    ⟨"USDC", 6, "", some usdcAddress, 1⟩ (by decide)
  have h2 := (c8_contextual_scaling (.vStr "12345678901234") 12345678901234 usdcAddress
    none registryInit (by decide) (by decide) (by decide)).2 (by decide)
  exact ⟨h1.1.trans (by decide), h2.trans (by decide)⟩

/-! ## C3 — `raw` is registry-independent -/

theorem jsonSer_arr_not_undefOut (ind : String) (elems : List Value) :
    jsonSer ind (.vArr elems) ≠ .undefOut := by
  cases elems with
  | nil => simp [jsonSer]
  | cons e es =>
    simp only [jsonSer]
    cases jsonSerItems (ind ++ "  ") (e :: es) <;> simp

theorem jsonSer_obj_not_undefOut (ind : String) (fields : List (String × Value)) :
    jsonSer ind (.vObj fields) ≠ .undefOut := by
  simp only [jsonSer]
  cases h : jsonSerFields (ind ++ "  ") fields with
  | none => simp
  | some entries => cases entries <;> simp

theorem rawOf_map_getD {X : Type} (o : Option X) (g : X → String) (r e : String) :
    rawOf (some ((o.map (fun d => (g d, r))).getD (e, r))) = some r := by
  cases o <;> rfl

/-- Every branch of the formatter body pairs its display with the
already-computed `raw` (or a constant re-serialization of the same
value), so the `raw` component is a function of the input value alone. -/
theorem rawOf_fveFuel (fuel : Nat) (v : Value) (chainId : Option String)
    (ctx : Value) (reg : RegistryState) :
    rawOf (fveFuel (fuel + 1) v chainId ctx reg) = rawSpec v := by
  cases v with
  | vNull => rfl
  | vUndefined => rfl
  | vBool b => rfl
  | vNum n => rfl
  | vBigInt n => rfl
  | vStr s =>
    show rawOf (fveFuel (fuel + 1) (.vStr s) chainId ctx reg) = some s
    simp only [fveFuel, jsonStringify2, jsonSer, isNullish, isBigNumberLike]
    repeat' split
    all_goals first
      | rfl
      | simp_all
  | vArr elems =>
    cases elems with
    | nil => rfl
    | cons e es =>
      have hspec : rawSpec (.vArr (e :: es)) =
          (match jsonStringify2 (.vArr (e :: es)) with
           | .ok s => some s
           | .undefOut => some "null"
           | .err => none) := rfl
      rw [hspec]
      simp only [fveFuel]
      cases hjson : jsonStringify2 (.vArr (e :: es)) with
      | undefOut => exact absurd hjson (jsonSer_arr_not_undefOut "" (e :: es))
      | err => rfl
      | ok r =>
        simp only [isNullish, isBigNumberLike, List.isEmpty]
        repeat' split
        all_goals first
          | exact rawOf_map_getD _ _ _ _
          | rfl
          | simp_all
  | vObj fields =>
    have hspec : rawSpec (.vObj fields) =
        (match jsonStringify2 (.vObj fields) with
         | .ok s => some s
         | .undefOut => some "null"
         | .err => none) := rfl
    rw [hspec]
    simp only [fveFuel]
    cases hjson : jsonStringify2 (.vObj fields) with
    | undefOut => exact absurd hjson (jsonSer_obj_not_undefOut "" fields)
    | err => rfl
    | ok r =>
      simp only [isNullish]
      repeat' split
      all_goals first
        | exact rawOf_map_getD _ _ _ _
        | rfl
        | simp_all

/-- The wrapper-level form of the characterization. -/
theorem rawOf_fve (v : Value) (chainId : Option String) (ctx : Value)
    (reg : RegistryState) :
    rawOf (formatValueEnhanced v chainId ctx reg) = rawSpec v := by
  obtain ⟨d, hd⟩ : ∃ d, valueDepth v = d + 1 :=
    ⟨valueDepth v - 1, by have := valueDepth_pos v; omega⟩
  unfold formatValueEnhanced
  rw [hd]
  exact rawOf_fveFuel d v chainId ctx reg

/-- C3: the `raw` component of the formatter result is a pure function
of the input value alone (`rawSpec`): it is identical across any two
Registry states — including the loaded-but-empty state after a failed
fetch and the exception-recovery path — though for plain string inputs
it is the bare string, not its JSON serialization. -/
theorem c3_raw_registry_independent (v : Value) (chainId : Option String)
    (contextToken : Value) (reg reg' : RegistryState) :
    rawOf (formatValueEnhanced v chainId contextToken reg)
      = rawOf (formatValueEnhanced v chainId contextToken reg')
    ∧ rawOf (formatValueEnhanced v chainId contextToken reg) = rawSpec v :=
  ⟨(rawOf_fve v chainId contextToken reg).trans
      (rawOf_fve v chainId contextToken reg').symm,
   rawOf_fve v chainId contextToken reg⟩

/-- C3 counterexample: for a plain string input the `raw` output is the
bare string, which is not its structural JSON serialization (the quoted
form) — the registry-independence half holds, the JSON-round-trip half
does not. -/
theorem c3_counterexample :
    rawOf (formatValueEnhanced (.vStr "swap") none .vUndefined registryInit) = some "swap"
    ∧ jsonStringify2 (.vStr "swap") = .ok "\"swap\""
    ∧ rawOf (formatValueEnhanced (.vStr "swap") none .vUndefined registryInit)
      ≠ some "\"swap\"" := by
  exact ⟨by decide, by decide, by decide⟩

/-! ## C9 — fee-tier path rendering -/

theorem feeArrowStep_eq (p : Int × String) :
    "→" ++ (" (" ++ divTenThousandRepr p.1 ++ "%)") ++ " " ++ p.2 = feeArrowStep p := by
  apply String.ext
  simp [String.data_append, List.append_assoc, feeArrowStep]

/-- The fee-tier hop loop renders exactly one spec-side arrow step per
hop when every hop has a non-zero numeric fee and a resolvable output
token. -/
theorem v3Steps_forall2 (reg : RegistryState) (chainId : Option String)
    (hops : List Value) (pairs : List (Int × String))
    (h : List.Forall₂
      (fun hop p =>
        objField hop "fee" = Value.vNum p.1 ∧ p.1 ≠ 0 ∧
        symbolOr (resolveToken reg (objField hop "tokenOut") (chainOpt chainId))
          (sliceVal (objField hop "tokenOut")) = some p.2)
      hops pairs) :
    v3Steps reg chainId hops = some (pairs.map feeArrowStep) := by
  induction h with
  | nil => rfl
  | @cons hop p hops' pairs' hhp htail ih =>
    obtain ⟨hfee, hnz, hsym⟩ := hhp
    have hfeeS : feeStr (objField hop "fee")
        = some (" (" ++ divTenThousandRepr p.1 ++ "%)") := by
      rw [hfee]
      simp [feeStr, Value.jsTruthy, Value.jsFalsy, hnz, jsDivTenThousand]
    simp only [v3Steps, hsym, hfeeS, ih]
    show some (("→" ++ (" (" ++ divTenThousandRepr p.1 ++ "%)") ++ " " ++ p.2)
        :: List.map feeArrowStep pairs')
      = some (List.map feeArrowStep (p :: pairs'))
    rw [List.map_cons, feeArrowStep_eq p]

/-- C9 counterexample: the single-hop fee-tier path of the claim's
concrete scenario renders with a space between the arrow and the fee
annotation — `SYMBOL_A → (0.3%) SYMBOL_B`, not `SYMBOL_A →(0.3%)
SYMBOL_B`. -/
theorem c9_counterexample :
    (formatValueEnhanced (.vArr [.vObj [("tokenIn", .vStr addrA), ("tokenOut", .vStr addrB),
        ("fee", .vNum 3000)]]) none .vUndefined regPath).map Prod.fst
      = some "SYMBOL_A → (0.3%) SYMBOL_B"
    ∧ ("SYMBOL_A → (0.3%) SYMBOL_B" : String) ≠ "SYMBOL_A →(0.3%) SYMBOL_B" := by
  exact ⟨by decide, by decide⟩

/-- C9 (amended): a fee-tier path whose hops all carry non-zero numeric
fees and resolvable tokens renders as the first hop's input-token
symbol followed by one arrow step per hop — the arrow, a space, the
parenthesized fee divided by 10 000 as a percentage, and the hop's
output-token symbol — all joined by spaces. -/
theorem c9_fee_path_rendering (first : Value) (rest : List Value)
    (pairs : List (Int × String)) (chainId : Option String) (contextToken : Value)
    (reg : RegistryState) (firstSym r : String)
    (hv3 : (first :: rest).all isV3Hop = true)
    (hnamed : (first :: rest).all isNameValueObj = false)
    (hjson : jsonStringify2 (.vArr (first :: rest)) = .ok r)
    (hfirst : symbolOr (resolveToken reg (objField first "tokenIn") (chainOpt chainId))
        (sliceVal (objField first "tokenIn")) = some firstSym)
    (hhops : List.Forall₂
      (fun hop p =>
        objField hop "fee" = Value.vNum p.1 ∧ p.1 ≠ 0 ∧
        symbolOr (resolveToken reg (objField hop "tokenOut") (chainOpt chainId))
          (sliceVal (objField hop "tokenOut")) = some p.2)
      (first :: rest) pairs) :
    formatValueEnhanced (.vArr (first :: rest)) chainId contextToken reg
      = some (String.intercalate " " (firstSym :: pairs.map feeArrowStep), r) := by
  have hv2 : (first :: rest).all isV2Addr = false := by
    have h1 : isV3Hop first = true := by
      have := hv3
      simp only [List.all_cons, Bool.and_eq_true] at this
      exact this.1
    have h2 : isV2Addr first = false := by
      cases first <;> first
        | rfl
        | (exfalso; simp [isV3Hop, isObjWithKey] at h1)
    simp [List.all_cons, h2]
  have hpath : formatV3Path (first :: rest) chainId reg
      = some (String.intercalate " " (firstSym :: pairs.map feeArrowStep)) := by
    simp only [formatV3Path, hfirst, v3Steps_forall2 reg chainId _ _ hhops]
    rfl
  obtain ⟨d, hd⟩ : ∃ d, valueDepth (Value.vArr (first :: rest)) = d + 1 :=
    ⟨valueDepth (Value.vArr (first :: rest)) - 1,
      by have := valueDepth_pos (Value.vArr (first :: rest)); omega⟩
  unfold formatValueEnhanced
  rw [hd]
  simp only [fveFuel, hjson, isNullish, isBigNumberLike, List.isEmpty, hnamed, hv2,
    hv3, hpath]
  rfl

/-- C9 witness: a two-hop fee-tier path, all resolvable. -/
theorem c9_fee_path_rendering_witness :
    formatValueEnhanced (.vArr
        [.vObj [("tokenIn", .vStr addrA), ("tokenOut", .vStr addrB), ("fee", .vNum 3000)],
         .vObj [("tokenIn", .vStr addrB), ("tokenOut", .vStr addrA), ("fee", .vNum 500)]])
        (some "1") .vUndefined regPath
      = some (String.intercalate " "
          ["SYMBOL_A", feeArrowStep (3000, "SYMBOL_B"), feeArrowStep (500, "SYMBOL_A")],
        "[\n  \x7b\n    \"tokenIn\": \"" ++ addrA ++ "\",\n    \"tokenOut\": \"" ++ addrB
          ++ "\",\n    \"fee\": 3000\n  \x7d,\n  \x7b\n    \"tokenIn\": \"" ++ addrB
          ++ "\",\n    \"tokenOut\": \"" ++ addrA ++ "\",\n    \"fee\": 500\n  \x7d\n]") := by
  have h := c9_fee_path_rendering
    (.vObj [("tokenIn", .vStr addrA), ("tokenOut", .vStr addrB), ("fee", .vNum 3000)])
    [.vObj [("tokenIn", .vStr addrB), ("tokenOut", .vStr addrA), ("fee", .vNum 500)]]
    [(3000, "SYMBOL_B"), (500, "SYMBOL_A")] (some "1") .vUndefined regPath
    "SYMBOL_A" _ (by decide) (by decide) rfl (by decide)
    (List.Forall₂.cons ⟨rfl, by decide, by decide⟩
      (List.Forall₂.cons ⟨rfl, by decide, by decide⟩ List.Forall₂.nil))
  exact h.trans (by decide)

/-! ## C10 — named-field lists take priority over path shapes -/

/-- The named-field loop renders each element as a `name: formatted`
line, recursively formatting each element's `value` with the chain id
passed through and no context token. -/
theorem namedPartsGo_forall2 (reg : RegistryState) (chainId : Option String)
    (items : List Value) (lines : List String)
    (h : List.Forall₂
      (fun item line => ∃ fr : String × String,
        formatValueEnhanced (objField item "value") chainId .vUndefined reg = some fr ∧
        line = jsToString (objField item "name") ++ ": " ++ fr.1)
      items lines) :
    namedParts items chainId reg = some lines := by
  induction h with
  | nil => rfl
  | @cons item line items' lines' hil htail ih =>
    obtain ⟨fr, hfr, hline⟩ := hil
    have ih' : namedPartsGo
        (fun w => formatValueEnhanced w chainId .vUndefined reg) items' = some lines' := ih
    simp only [namedParts, namedPartsGo, hfr, ih']
    rw [hline]
    rfl

/-- C10: a non-empty array whose elements all carry `name` and `value`
renders as the named-field list — the recursively formatted
`name: formattedValue` lines — even when the same elements also match
the fee-tier or intermediate-currency path shapes, because the
named-field test runs first in the classification order. -/
theorem c10_named_field_priority (item0 : Value) (items : List Value)
    (lines : List String) (chainId : Option String) (contextToken : Value)
    (reg : RegistryState) (r : String)
    (hall : (item0 :: items).all isNameValueObj = true)
    (hjson : jsonStringify2 (.vArr (item0 :: items)) = .ok r)
    (hlines : List.Forall₂
      (fun item line => ∃ fr : String × String,
        formatValueEnhanced (objField item "value") chainId .vUndefined reg = some fr ∧
        line = jsToString (objField item "name") ++ ": " ++ fr.1)
      (item0 :: items) lines) :
    formatValueEnhanced (.vArr (item0 :: items)) chainId contextToken reg
      = some (String.intercalate "\n" lines, r) := by
  obtain ⟨d, hd⟩ : ∃ d, valueDepth (Value.vArr (item0 :: items)) = d + 1 :=
    ⟨valueDepth (Value.vArr (item0 :: items)) - 1,
      by have := valueDepth_pos (Value.vArr (item0 :: items)); omega⟩
  have hdepth : valueListDepth (item0 :: items) ≤ d := by
    have : valueDepth (Value.vArr (item0 :: items))
        = valueListDepth (item0 :: items) + 1 := by simp [valueDepth]
    omega
  have hnp : namedPartsGo (fun w => fveFuel d w chainId .vUndefined reg) (item0 :: items)
      = some lines :=
    (namedParts_eq_fuel (item0 :: items) chainId reg d hdepth).trans
      (namedPartsGo_forall2 reg chainId (item0 :: items) lines hlines)
  unfold formatValueEnhanced
  rw [hd]
  simp only [fveFuel, hjson, isNullish, isBigNumberLike, List.isEmpty, hall, hnp]
  rfl

/-- C10 witness: one element carrying `name`/`value` and all three path
markers still renders as a named-field line. -/
theorem c10_named_field_priority_witness :
    formatValueEnhanced (.vArr [.vObj [("name", .vStr "x"), ("value", .vNum 7),
        ("tokenIn", .vStr addrA), ("tokenOut", .vStr addrB),
        ("intermediateCurrency", .vStr addrA)]]) none .vUndefined regPath
      = some ("x: 7",
        "[\n  \x7b\n    \"name\": \"x\",\n    \"value\": 7,\n    \"tokenIn\": \"" ++ addrA
          ++ "\",\n    \"tokenOut\": \"" ++ addrB ++ "\",\n    \"intermediateCurrency\": \""
          ++ addrA ++ "\"\n  \x7d\n]") := by
  have h := c10_named_field_priority (.vObj [("name", .vStr "x"), ("value", .vNum 7),
      ("tokenIn", .vStr addrA), ("tokenOut", .vStr addrB),
      ("intermediateCurrency", .vStr addrA)]) [] ["x: 7"] none .vUndefined regPath
    _ (by decide) rfl
    (List.Forall₂.cons ⟨("7", "7"), by decide, by decide⟩ List.Forall₂.nil)
  exact h.trans (by decide)

/-! ## C7 — output-currency scaling in the swap descriptor -/

/-- C7 counterexample: for a swap descriptor with a path but no explicit
output currency, the current `formatSwapObject` scales `amountOut` by
the path's first intermediate currency (USDC, 6 decimals), while the
older revision — the claim's second cited implementation — ignores the
path and falls back to the generic 18-decimals `tokens` unit. -/
theorem c7_counterexample :
    formatSwapObject (.vObj [("amountOut", .vStr "1000000"),
        ("path", .vArr [.vObj [("intermediateCurrency", .vStr usdcAddress)]])])
        none regUsdc
      = "Amount Out: 1 USDC\nPath: → USDC"
    ∧ Legacy.formatSwapObject (.vObj [("amountOut", .vStr "1000000"),
        ("path", .vArr [.vObj [("intermediateCurrency", .vStr usdcAddress)]])])
        regUsdc
      = "Amount Out: 0.000000000001 tokens\nPath: → USDC"
    ∧ ("Amount Out: 0.000000000001 tokens\nPath: → USDC" : String)
      ≠ "Amount Out: 1 USDC\nPath: → USDC" := by
  exact ⟨by decide, by decide, by decide⟩

/-- C7 (amended), part of the statement shared by both scenarios: in
the current `formatSwapObject`, `amountOut` and `amountOutMinimum` are
scaled by the explicit output currency when present, and otherwise by
the first path hop's intermediate currency; the input currency is never
used for them. -/
theorem c7_output_currency_scaling (a m h0 : Value) (t : List Value)
    (chainId : Option String) (reg : RegistryState)
    (fOut fMin fOut2 fMin2 pDesc : String) (cia ca : String)
    (hta : a.jsTruthy = true) (htm : m.jsTruthy = true)
    (hic : (objField h0 "intermediateCurrency").jsTruthy = true)
    (hfo : formatTokenAmount a (objField h0 "intermediateCurrency") chainId reg
      = some fOut)
    (hfm : formatTokenAmount m (objField h0 "intermediateCurrency") chainId reg
      = some fMin)
    (hfo2 : formatTokenAmount a (.vStr ca) chainId reg = some fOut2)
    (hfm2 : formatTokenAmount m (.vStr ca) chainId reg = some fMin2)
    (hpd : formatV4Path (h0 :: t) chainId reg = some pDesc)
    (hpne : pDesc ≠ "")
    (hcia : cia ≠ "") (hca : ca ≠ "") :
    formatSwapObject (.vObj [("amountOut", a), ("amountOutMinimum", m),
        ("path", .vArr (h0 :: t))]) chainId reg
      = String.intercalate "\n"
          ["Amount Out: " ++ fOut, "Min Out: " ++ fMin, "Path: " ++ pDesc]
    ∧ formatSwapObject (.vObj [("currencyIn", .vStr cia), ("currencyOut", .vStr ca),
        ("amountOut", a), ("amountOutMinimum", m), ("path", .vArr (h0 :: t))])
        chainId reg
      = String.intercalate "\n"
          ["From: " ++ symbolOrStr (resolveToken reg (.vStr cia) (chainOpt chainId))
              (if cia = zeroAddress then "Native ETH" else addrShort cia),
           "To: " ++ symbolOrStr (resolveToken reg (.vStr ca) (chainOpt chainId))
              (if ca = zeroAddress then "Native ETH" else addrShort ca),
           "Amount Out: " ++ fOut2, "Min Out: " ++ fMin2, "Path: " ++ pDesc] := by
  have hciaT : (Value.vStr cia).jsTruthy = true := by
    simp [Value.jsTruthy, Value.jsFalsy, hcia]
  have hcaT : (Value.vStr ca).jsTruthy = true := by
    simp [Value.jsTruthy, Value.jsFalsy, hca]
  have hut : Value.jsTruthy Value.vUndefined = false := rfl
  have hpt : (Value.vArr (h0 :: t)).jsTruthy = true := rfl
  have hscale : Value.jsOrVal (objField h0 "intermediateCurrency") Value.vUndefined
      = objField h0 "intermediateCurrency" := by
    simp [Value.jsOrVal, hic]
  constructor
  · have eCI : objField (Value.vObj [("amountOut", a), ("amountOutMinimum", m),
        ("path", .vArr (h0 :: t))]) "currencyIn" = Value.vUndefined := rfl
    have eCO : objField (Value.vObj [("amountOut", a), ("amountOutMinimum", m),
        ("path", .vArr (h0 :: t))]) "currencyOut" = Value.vUndefined := rfl
    have eAI : objField (Value.vObj [("amountOut", a), ("amountOutMinimum", m),
        ("path", .vArr (h0 :: t))]) "amountIn" = Value.vUndefined := rfl
    have eAO : objField (Value.vObj [("amountOut", a), ("amountOutMinimum", m),
        ("path", .vArr (h0 :: t))]) "amountOut" = a := rfl
    have eAOM : objField (Value.vObj [("amountOut", a), ("amountOutMinimum", m),
        ("path", .vArr (h0 :: t))]) "amountOutMinimum" = m := rfl
    have ePath : objField (Value.vObj [("amountOut", a), ("amountOutMinimum", m),
        ("path", .vArr (h0 :: t))]) "path" = Value.vArr (h0 :: t) := rfl
    have hout : Value.jsOrVal (swapOutputToken (Value.vObj [("amountOut", a),
        ("amountOutMinimum", m), ("path", .vArr (h0 :: t))])) Value.vUndefined
        = objField h0 "intermediateCurrency" := by
      simp only [swapOutputToken, ePath, eCO, hpt, hut, if_true]
      simp only [Bool.false_eq_true, if_false]
      exact hscale
    simp only [formatSwapObject, swapBody, eCI, eCO, eAI, eAO, eAOM, ePath, hout,
      hut, hpt, hta, htm, hfo, hfm, hpd, Bool.false_eq_true, if_false, if_true,
      Option.some_bind]
    simp [hpne]
  · have eCI : objField (Value.vObj [("currencyIn", .vStr cia), ("currencyOut", .vStr ca),
        ("amountOut", a), ("amountOutMinimum", m), ("path", .vArr (h0 :: t))])
        "currencyIn" = Value.vStr cia := rfl
    have eCO : objField (Value.vObj [("currencyIn", .vStr cia), ("currencyOut", .vStr ca),
        ("amountOut", a), ("amountOutMinimum", m), ("path", .vArr (h0 :: t))])
        "currencyOut" = Value.vStr ca := rfl
    have eAI : objField (Value.vObj [("currencyIn", .vStr cia), ("currencyOut", .vStr ca),
        ("amountOut", a), ("amountOutMinimum", m), ("path", .vArr (h0 :: t))])
        "amountIn" = Value.vUndefined := rfl
    have eAO : objField (Value.vObj [("currencyIn", .vStr cia), ("currencyOut", .vStr ca),
        ("amountOut", a), ("amountOutMinimum", m), ("path", .vArr (h0 :: t))])
        "amountOut" = a := rfl
    have eAOM : objField (Value.vObj [("currencyIn", .vStr cia), ("currencyOut", .vStr ca),
        ("amountOut", a), ("amountOutMinimum", m), ("path", .vArr (h0 :: t))])
        "amountOutMinimum" = m := rfl
    have ePath : objField (Value.vObj [("currencyIn", .vStr cia), ("currencyOut", .vStr ca),
        ("amountOut", a), ("amountOutMinimum", m), ("path", .vArr (h0 :: t))])
        "path" = Value.vArr (h0 :: t) := rfl
    have hout : Value.jsOrVal (swapOutputToken (Value.vObj [("currencyIn", .vStr cia),
        ("currencyOut", .vStr ca), ("amountOut", a), ("amountOutMinimum", m),
        ("path", .vArr (h0 :: t))])) (Value.vStr ca) = Value.vStr ca := by
      simp only [swapOutputToken, ePath, eCO, hcaT, if_true]
      simp [Value.jsOrVal, hcaT]
    have hlabCia : currencyAddrLabel (Value.vStr cia)
        = some (if cia = zeroAddress then "Native ETH" else addrShort cia) := by
      simp only [currencyAddrLabel]
      split <;> simp [*]
    have hlabCa : currencyAddrLabel (Value.vStr ca)
        = some (if ca = zeroAddress then "Native ETH" else addrShort ca) := by
      simp only [currencyAddrLabel]
      split <;> simp [*]
    simp only [formatSwapObject, swapBody, eCI, eCO, eAI, eAO, eAOM, ePath, hout,
      hciaT, hcaT, hut, hpt, hta, htm, hfo2, hfm2, hpd, hlabCia, hlabCa,
      Bool.false_eq_true, if_false, if_true, Option.some_bind]
    simp [hpne]

/-- C7 witness: both scenarios at concrete inputs — without an explicit
output currency the path's USDC scales the amounts; with `currencyOut`
present it wins even though the path is still there. -/
theorem c7_output_currency_scaling_witness :
    formatSwapObject (.vObj [("amountOut", .vStr "2000000"),
        ("amountOutMinimum", .vStr "1000000"),
        ("path", .vArr [.vObj [("intermediateCurrency", .vStr usdcAddress)]])])
        none regUsdc
      = "Amount Out: 2 USDC\nMin Out: 1 USDC\nPath: → USDC"
    ∧ formatSwapObject (.vObj [("currencyIn", .vStr addrA),
        ("currencyOut", .vStr usdcAddress), ("amountOut", .vStr "2000000"),
        ("amountOutMinimum", .vStr "1000000"),
        ("path", .vArr [.vObj [("intermediateCurrency", .vStr usdcAddress)]])])
        none regUsdc
      = "From: 0xaaaa...aaaa\nTo: USDC\nAmount Out: 2 USDC\nMin Out: 1 USDC\nPath: → USDC" := by
  have h := c7_output_currency_scaling (.vStr "2000000") (.vStr "1000000")
    (.vObj [("intermediateCurrency", .vStr usdcAddress)]) [] none regUsdc
    "2 USDC" "1 USDC" "2 USDC" "1 USDC" "→ USDC" addrA usdcAddress
    (by decide) (by decide) (by decide) (by decide) (by decide) (by decide)
    (by decide) (by decide) (by decide) (by decide) (by decide)
  exact ⟨h.1.trans (by decide), h.2.trans (by decide)⟩

end CallDataParser
